import Mathlib

/-!
Shallow embedding of `src/backup_pag-construction/src/dataflow.rs` (snailtrail
PAG-construction dataflow): the windowed streaming orchestration around the
program-activity-graph pipeline.  Timestamps and `std::time::Duration` values
are modelled as `Nat` nanosecond counts (one window unit = one nanosecond of
the epoch `Duration`); `Duration` subtraction panics on underflow in Rust, so
it is modelled by `checkedSub : Nat → Nat → Option Nat` and fallible code
returns `Option`.  Machine integers (`u64`, `u32`) never overflow in the
scenarios considered, and `as u8` truncation is modelled by `% 256` where it
occurs (`MapToSummary`, `e_weight`).
-/

namespace Dataflow

/-- Embedding of `Config` (dataflow.rs lines 46-63).  `timely_args` and
`log_path` (process-level strings) are omitted; every field that steers the
dataflow shape is kept. -/
structure Config where
  threshold : Nat
  window_size_ns : Nat
  epochs : Nat
  message_delay : Option Nat
  verbose : Nat
  dump_pag : Bool
  write_bc_dot : Bool
  write_pag_dot : Bool
  write_pag_msgpack : Bool
  insert_waiting_edges : Bool
  disable_summary : Bool
  disable_bc : Bool
  waiting_message : Nat
  deriving Repr, DecidableEq

/-- The probe handles `build_dataflow` creates, tagged by the stream each one
probes (dataflow.rs lines 285, 405, 456, 589, 624); `run_dataflow` later names
them "pag", "bc", "sp", "summary", "sp_summary" in this order (line 254). -/
inductive ProbeId where
  | pag
  | bc
  | sp
  | summary
  | spSummary
  deriving Repr, DecidableEq

/-- Marker for the injection handle `scope.new_input()` returns (line 276). -/
structure InputHandleTag where
  deriving Repr, DecidableEq

/-- Embedding of the return structure of `build_dataflow` (dataflow.rs lines
270-632): the input handle plus the probe list.  The debug sinks, inspects and
counts are side effects that do not change the returned value; the two early
returns are at lines 324-326 (`disable_bc`) and 407-409 (`disable_summary`),
and the full return at lines 626-632. -/
def build_dataflow (config : Config) : InputHandleTag × List ProbeId :=
  let probe_pag := ProbeId.pag
  if config.disable_bc then
    (InputHandleTag.mk, [probe_pag])
  else
    let probe_bc := ProbeId.bc
    if config.disable_summary then
      (InputHandleTag.mk, [probe_pag, probe_bc])
    else
      let probe_sp := ProbeId.sp
      let probe_summary := ProbeId.summary
      let probe_sp_summary := ProbeId.spSummary
      (InputHandleTag.mk,
       [probe_pag, probe_bc, probe_sp, probe_summary, probe_sp_summary])

/-- Epoch assignment of `feed_input` (dataflow.rs line 166):
`let epoch = rec.timestamp / window_size_ns;` — `Duration / u32` division,
i.e. floor division of the nanosecond count. -/
def epochOf (timestamp window_size_ns : Nat) : Nat :=
  timestamp / window_size_ns

/-- C1: for every configuration, `build_dataflow` returns the injection handle
plus the ordered tracker list determined solely by the two disable flags:
`disable_bc = true` gives exactly the PAG tracker; `disable_bc = false` with
`disable_summary = true` gives exactly [PAG, centrality]; both false gives the
five trackers [PAG, centrality, single-path, summary, single-path-summary] in
that fixed order. -/
theorem build_dataflow_tracker_contract (config : Config) :
    (build_dataflow config).1 = InputHandleTag.mk ∧
    (config.disable_bc = true →
      (build_dataflow config).2 = [ProbeId.pag] ∧
      (build_dataflow config).2.length = 1) ∧
    (config.disable_bc = false → config.disable_summary = true →
      (build_dataflow config).2 = [ProbeId.pag, ProbeId.bc] ∧
      (build_dataflow config).2.length = 2) ∧
    (config.disable_bc = false → config.disable_summary = false →
      (build_dataflow config).2 =
        [ProbeId.pag, ProbeId.bc, ProbeId.sp, ProbeId.summary,
         ProbeId.spSummary] ∧
      (build_dataflow config).2.length = 5) := by
  refine ⟨rfl, ?_, ?_, ?_⟩
  · intro h1
    simp [build_dataflow, h1]
  · intro h1 h2
    simp [build_dataflow, h1, h2]
  · intro h1 h2
    simp [build_dataflow, h1, h2]

/-- C2: for `window_size_ns > 0`, the feeder assigns a record with timestamp
`t` to the window `epochOf t W = ⌊t / W⌋` (characterised by the floor bounds
`W * epoch ≤ t < W * (epoch + 1)`), and window assignment is monotone over
sorted input: `t1 ≤ t2` implies `epochOf t1 W ≤ epochOf t2 W`. -/
theorem epochOf_floor_and_monotone (t t1 t2 W : Nat) (hW : 0 < W) :
    (W * epochOf t W ≤ t ∧ t < W * (epochOf t W + 1)) ∧
    (t1 ≤ t2 → epochOf t1 W ≤ epochOf t2 W) := by
  constructor
  · have h1 := Nat.div_add_mod t W
    have h2 := Nat.mod_lt t hW
    have h3 : W * (t / W + 1) = W * (t / W) + W := Nat.mul_succ W (t / W)
    simp only [epochOf]
    omega
  · intro h
    exact Nat.div_le_div_right h

/-- Witness for C2 at the spec's own example values: `W = 1000`, `t = 2500`
(window 2), and the sorted pair `t1 = 999 ≤ t2 = 1000`. -/
theorem epochOf_floor_and_monotone_witness :
    (1000 * epochOf 2500 1000 ≤ 2500 ∧ 2500 < 1000 * (epochOf 2500 1000 + 1)) ∧
    epochOf 999 1000 ≤ epochOf 1000 1000 := by
  have h := epochOf_floor_and_monotone 2500 999 1000 1000 (by decide)
  exact ⟨h.1, h.2 (by decide)⟩

/-- Embedding of `ProbeWrapper` (dataflow.rs lines 122-151).  The wrapped
`ProbeHandle` is modelled by its least incomplete epoch `pending`:
`probe.less_than(&t)` holds iff `pending < t` (some work at an epoch `< t` is
outstanding).  `current` is the locally owned pointer. -/
structure ProbeWrapper where
  pending : Nat
  current : Nat
  deriving Repr, DecidableEq

/-- `ProbeHandle::less_than` on the model: outstanding work strictly before
`t`. -/
def lessThan (pending t : Nat) : Bool := pending < t

/-- `ProbeWrapper::print_and_advance` (lines 137-146): while the probe reports
no outstanding work at or before `current`, print an `EPOCH` diagnostic and
advance `current` by one unit (`Duration::new(0, 1)`).  Returns the final
value of `current`. -/
def print_and_advance (pending current : Nat) : Nat :=
  if lessThan pending current then current
  else print_and_advance pending (current + 1)
termination_by pending + 1 - current
decreasing_by
  rename_i h
  simp [lessThan] at h
  omega

/-- `ProbeWrapper::set_current` (lines 148-150): unconditional assignment. -/
def set_current (w : ProbeWrapper) (newCurrent : Nat) : ProbeWrapper :=
  { w with current := newCurrent }

/-- The operations `feed_input` performs on one tracker: a drain
(`print_and_advance`) or a `set_current` call. -/
inductive TrackerOp where
  | drain
  | set (newCurrent : Nat)
  deriving Repr, DecidableEq

/-- One tracker operation applied to a `ProbeWrapper`. -/
def applyTrackerOp (w : ProbeWrapper) : TrackerOp → ProbeWrapper
  | TrackerOp.drain => { w with current := print_and_advance w.pending w.current }
  | TrackerOp.set v => set_current w v

/-- The state the backpressure loop of `feed_input` watches (lines 184-192):
the least incomplete epoch of each non-last probe (`others`) and of the last
probe (`last`).  Draining prints diagnostics and moves each wrapper's
`current`; only `computation.step()` can move the probes themselves, so the
loop is parameterized by an abstract step oracle. -/
structure WaitState where
  others : List Nat
  last : Nat
  deriving Repr, DecidableEq

/-- The backpressure loop of `feed_input` (lines 184-192): while
`last_probe.probe.less_than(&target)` — with `target = *input.time() - epochs`
— drain every tracker and run `computation.step()`.  `fuel` bounds the number
of iterations; `none` means the loop was still running when fuel ran out. -/
def waitLoop (step : WaitState → WaitState) (target : Nat) :
    Nat → WaitState → Option WaitState
  | 0, s => if lessThan s.last target then none else some s
  | fuel + 1, s =>
    if lessThan s.last target then waitLoop step target fuel (step s)
    else some s

/-- `Duration` subtraction (`std::time::Duration::sub`) panics on underflow;
`none` models the panic. -/
def checkedSub (a b : Nat) : Option Nat :=
  if b ≤ a then some (a - b) else none

/-- The diagnostics of `feed_input` the claims talk about: the
`EPOCH input <window>` line (line 178, a window-boundary crossing of the
input) and the `COUNT <window> 0 nodes <n>` line (lines 196 and 216). -/
inductive FeedEvent where
  | epochInput (w : Nat)
  | countNodes (w n : Nat)
  deriving Repr, DecidableEq

/-- The feeder's loop state across records of `feed_input` (lines 159-202):
the `first` flag, the input handle's frontier (`input.epoch()`, in window
units), `old_epoch`, `node_count`, and the probes' completion state. -/
structure FeedState where
  first : Bool
  inputEpoch : Nat
  oldEpoch : Nat
  nodeCount : Nat
  ws : WaitState
  deriving Repr, DecidableEq

/-- One iteration of the `for rec in input_records` loop of `feed_input`
(lines 164-202), for a record with the given timestamp:
 * lines 166-175: compute the epoch; on the first record set every tracker's
   `current`, remember `old_epoch` and call `input.advance_to(epoch - 1ns)` —
   the 1ns `Duration` subtraction panics (`none`) when `epoch = 0`;
 * lines 177-194: when the record's window strictly exceeds the input
   frontier, print `EPOCH input`, advance the frontier and run the
   backpressure loop with target `*input.time() - epochs` (panics when
   `epochs > epoch`);
 * lines 195-199: on a window-boundary crossing print the previous window's
   `COUNT ... nodes` line and reset the count;
 * lines 200-201: send the record and bump `node_count`. -/
def process_record (step : WaitState → WaitState) (fuel window_size_ns lag : Nat)
    (s : FeedState) (timestamp : Nat) : Option (FeedState × List FeedEvent) := do
  let epoch := epochOf timestamp window_size_ns
  let s1 ←
    if s.first then do
      let ie ← checkedSub epoch 1
      pure { s with first := false, oldEpoch := epoch, inputEpoch := ie }
    else
      pure s
  let (s2, evs1) ←
    if s1.inputEpoch < epoch then do
      let target ← checkedSub epoch lag
      let ws2 ← waitLoop step target fuel s1.ws
      pure (({ s1 with inputEpoch := epoch, ws := ws2 } : FeedState),
            [FeedEvent.epochInput epoch])
    else
      pure (s1, ([] : List FeedEvent))
  let (s3, evs2) :=
    if s2.oldEpoch < epoch then
      (({ s2 with nodeCount := 0, oldEpoch := epoch } : FeedState),
       [FeedEvent.countNodes s2.oldEpoch s2.nodeCount])
    else
      (s2, ([] : List FeedEvent))
  pure ({ s3 with nodeCount := s3.nodeCount + 1 }, evs1 ++ evs2)

/-- The record loop of `feed_input` over a whole input sequence. -/
def feedLoop (step : WaitState → WaitState) (fuel window_size_ns lag : Nat) :
    List Nat → FeedState → Option (FeedState × List FeedEvent)
  | [], s => some (s, [])
  | t :: rest, s => do
    let (s1, evs1) ← process_record step fuel window_size_ns lag s t
    let (s2, evs2) ← feedLoop step fuel window_size_ns lag rest s1
    pure (s2, evs1 ++ evs2)

/-- Embedding of `feed_input` (dataflow.rs lines 153-217) over the timestamps
of `input_records`: run the record loop from the initial state, then the final
drain loop (lines 203-211, target `input.time()`), then print the last
window's `COUNT ... nodes` line (line 216).  The returned list holds the
`EPOCH input` and `COUNT` diagnostics in emission order; `none` models a
panic or fuel exhaustion. -/
def feed_input (step : WaitState → WaitState) (fuel window_size_ns lag : Nat)
    (timestamps : List Nat) (ws0 : WaitState) : Option (List FeedEvent) := do
  let s0 : FeedState := { first := true, inputEpoch := 0, oldEpoch := 0,
                          nodeCount := 0, ws := ws0 }
  let (s, evs) ← feedLoop step fuel window_size_ns lag timestamps s0
  let _wsEnd ← waitLoop step s.inputEpoch fuel s.ws
  pure (evs ++ [FeedEvent.countNodes s.oldEpoch s.nodeCount])

/-- Helper: `print_and_advance` never moves `current` backwards. -/
theorem print_and_advance_le (p c : Nat) : c ≤ print_and_advance p c := by
  rw [print_and_advance]
  split
  · exact Nat.le_refl c
  · exact Nat.le_trans (Nat.le_succ c) (print_and_advance_le p (c + 1))
termination_by p + 1 - c
decreasing_by
  rename_i h
  simp [lessThan] at h
  omega

/-- Helper: when the backpressure loop exits normally, the last probe has no
outstanding work strictly before the target. -/
theorem waitLoop_last_ge_target (step : WaitState → WaitState) (target : Nat) :
    ∀ (fuel : Nat) (s s' : WaitState),
      waitLoop step target fuel s = some s' → target ≤ s'.last := by
  intro fuel
  induction fuel with
  | zero =>
    intro s s' h
    rw [waitLoop] at h
    split at h
    · exact absurd h (by simp)
    · rename_i hlt
      simp [lessThan] at hlt
      obtain rfl : s = s' := by simpa using h
      exact hlt
  | succ n ih =>
    intro s s' h
    rw [waitLoop] at h
    split at h
    · exact ih (step s) s' h
    · rename_i hlt
      simp [lessThan] at hlt
      obtain rfl : s = s' := by simpa using h
      exact hlt

/-- C5 counterexample: the claim counts `set_current` among the operations,
but `set_current` assigns its argument unconditionally (dataflow.rs lines
148-150), so `current` can decrease: from a wrapper with `current = 1`,
`set_current 0` leaves `current = 0 < 1`. -/
theorem tracker_current_can_decrease :
    (applyTrackerOp (ProbeWrapper.mk 0 1) (TrackerOp.set 0)).current = 0 ∧
    (ProbeWrapper.mk 0 1).current = 1 ∧
    ¬ ((ProbeWrapper.mk 0 1).current ≤
        (applyTrackerOp (ProbeWrapper.mk 0 1) (TrackerOp.set 0)).current) := by
  refine ⟨rfl, rfl, ?_⟩
  decide

/-- C5 amended: the tracker's `current` pointer never decreases across drain
(`print_and_advance`) operations — for a single drain against any probe state
and for any sequence of drains against arbitrary probe states — while
`set_current` (called once by the feeder, on the first record) overwrites it
with its argument unconditionally. -/
theorem tracker_current_monotone_under_drains (pendings : List Nat)
    (p c v : Nat) (w : ProbeWrapper) :
    c ≤ print_and_advance p c ∧
    c ≤ pendings.foldl (fun cur q => print_and_advance q cur) c ∧
    (set_current w v).current = v := by
  refine ⟨print_and_advance_le p c, ?_, rfl⟩
  induction pendings generalizing c with
  | nil => exact Nat.le_refl c
  | cons q rest ih =>
    exact Nat.le_trans (print_and_advance_le q c) (ih (print_and_advance q c))

/-- C3 amended: for every non-first record whose window strictly exceeds the
input frontier, `process_record` (when it returns) has advanced the frontier
to that window, emitted the `EPOCH input` crossing, and run the backpressure
loop until the LAST tracker — the one `feed_input` pops at line 159, the most
downstream probe — reports no outstanding work more than `lag` windows behind
the new frontier.  (The loop condition at lines 184-186 consults only this
last probe; the other trackers are drained for diagnostics each iteration but
do not gate the exit.) -/
theorem feeder_backpressure_last_tracker (step : WaitState → WaitState)
    (fuel window_size_ns lag : Nat) (s s' : FeedState) (timestamp : Nat)
    (evs : List FeedEvent)
    (hfirst : s.first = false)
    (hadv : s.inputEpoch < epochOf timestamp window_size_ns)
    (hrun : process_record step fuel window_size_ns lag s timestamp
              = some (s', evs)) :
    s'.inputEpoch = epochOf timestamp window_size_ns ∧
    epochOf timestamp window_size_ns - lag ≤ s'.ws.last ∧
    FeedEvent.epochInput (epochOf timestamp window_size_ns) ∈ evs := by
  cases htgt : checkedSub (epochOf timestamp window_size_ns) lag with
  | none =>
    simp [process_record, hfirst, hadv, htgt] at hrun
  | some target =>
    cases hwl : waitLoop step target fuel s.ws with
    | none =>
      simp [process_record, hfirst, hadv, htgt, hwl] at hrun
    | some ws2 =>
      have htarget : target = epochOf timestamp window_size_ns - lag := by
        unfold checkedSub at htgt
        split at htgt
        · exact (Option.some.injEq _ _ ▸ htgt).symm
        · exact absurd htgt (by simp)
      have hlast : target ≤ ws2.last :=
        waitLoop_last_ge_target step target fuel s.ws ws2 hwl
      by_cases hcross : s.oldEpoch < epochOf timestamp window_size_ns <;>
        · simp [process_record, hfirst, hadv, htgt, hwl, hcross] at hrun
          obtain ⟨hs, hevs⟩ := hrun
          subst hs
          subst hevs
          exact ⟨rfl, htarget ▸ hlast, by simp⟩

/-- Witness for C3's amended theorem: a concrete non-first record (timestamp
6000, window 6) against frontier 4 with `lag = 1`; the step oracle advances
the last probe by one epoch per `computation.step()`, so the loop exits with
the last probe at 5 = 6 - 1. -/
theorem feeder_backpressure_last_tracker_witness :
    (FeedState.mk false 6 6 1 (WaitState.mk [0] 5)).inputEpoch
      = epochOf 6000 1000 ∧
    epochOf 6000 1000 - 1 ≤ (FeedState.mk false 6 6 1 (WaitState.mk [0] 5)).ws.last ∧
    FeedEvent.epochInput (epochOf 6000 1000)
      ∈ [FeedEvent.epochInput 6, FeedEvent.countNodes 4 1] :=
  feeder_backpressure_last_tracker
    (fun s => WaitState.mk s.others (s.last + 1)) 10 1000 1
    (FeedState.mk false 4 4 1 (WaitState.mk [0] 3))
    (FeedState.mk false 6 6 1 (WaitState.mk [0] 5))
    6000 [FeedEvent.epochInput 6, FeedEvent.countNodes 4 1]
    rfl (by decide) rfl

/-- C3 counterexample: the claim's universal part — "no tracker is ever left
more than lag_tolerance windows behind the frontier when injection resumes" —
is false: only the last probe gates the loop (lines 184-186).  Concretely,
with `lag = 0` and the last probe already at the new frontier 10, injection
resumes immediately while another tracker still sits at epoch 0, i.e. 10
windows behind, which exceeds the tolerance 0. -/
theorem feeder_backpressure_other_tracker_cex :
    process_record (fun s => s) 1 1000 0
        (FeedState.mk false 4 4 1 (WaitState.mk [0] 10)) 10000
      = some (FeedState.mk false 10 10 1 (WaitState.mk [0] 10),
              [FeedEvent.epochInput 10, FeedEvent.countNodes 4 1]) ∧
    ¬ (10 - (WaitState.mk [0] 10).others.getD 0 0 ≤ 0) := by
  refine ⟨rfl, ?_⟩
  decide

/-- C4: evaluating the feeder at the spec's end-to-end example.  The window
buckets are `{0,0,0,1,2}` as claimed, but `feed_input` panics on the very
first record: with `epoch = 0` the call `input.advance_to(epoch -
Duration::new(0,1))` (line 174) underflows — the code's own comment at line
183 concedes it "will crash on timestamps < 3".  The same input shifted by
three windows (timestamps 3000..5500) shows the intended behaviour the claim
describes: three `EPOCH input` crossings and per-window counts `{3,1,1}`. -/
theorem feed_input_example_panics :
    feed_input (fun s => s) 8 1000 1 [0, 100, 999, 1000, 2500]
        (WaitState.mk [] 0) = none ∧
    [0, 100, 999, 1000, 2500].map (fun t => epochOf t 1000) = [0, 0, 0, 1, 2] ∧
    feed_input (fun s => s) 8 1000 1 [3000, 3100, 3999, 4000, 5500]
        (WaitState.mk [] 5)
      = some [FeedEvent.epochInput 3, FeedEvent.epochInput 4,
              FeedEvent.countNodes 3 3, FeedEvent.epochInput 5,
              FeedEvent.countNodes 4 1, FeedEvent.countNodes 5 1] :=
  ⟨rfl, rfl, rfl⟩

/-- `HashMap::get` / lookup on an association-list model of the per-window
`HashMap`s (the operators own one map each; keys are unique). -/
def alistLookup {α β : Type} [DecidableEq α] : List (α × β) → α → Option β
  | [], _ => none
  | (k0, v0) :: rest, k => if k0 = k then some v0 else alistLookup rest k

/-- `HashMap::remove`: drop the entry for the key. -/
def alistRemove {α β : Type} [DecidableEq α] : List (α × β) → α → List (α × β)
  | [], _ => []
  | (k0, v0) :: rest, k =>
    if k0 = k then rest else (k0, v0) :: alistRemove rest k

/-- `HashMap::entry(k).or_insert_with(..)` followed by a mutation: replace the
key's value by `f (some old)`, or insert `f none`. -/
def alistUpdate {α β : Type} [DecidableEq α] (f : Option β → β) :
    List (α × β) → α → List (α × β)
  | [], k => [(k, f none)]
  | (k0, v0) :: rest, k =>
    if k0 = k then (k0, f (some v0)) :: rest
    else (k0, v0) :: alistUpdate f rest k

theorem alistLookup_eq_none_of_not_mem {α β : Type} [DecidableEq α]
    (m : List (α × β)) (k : α) (h : k ∉ m.map Prod.fst) :
    alistLookup m k = none := by
  induction m with
  | nil => rfl
  | cons kv rest ih =>
    obtain ⟨k0, v0⟩ := kv
    rw [List.map_cons] at h
    have h1 : k ≠ k0 := fun hk => h (hk ▸ List.mem_cons_self _ _)
    have h2 : k ∉ rest.map Prod.fst := fun hk => h (List.mem_cons_of_mem _ hk)
    rw [alistLookup, if_neg (fun hk : k0 = k => h1 hk.symm)]
    exact ih h2

theorem alistLookup_alistRemove_self {α β : Type} [DecidableEq α]
    (m : List (α × β)) (k : α) (h : (m.map Prod.fst).Nodup) :
    alistLookup (alistRemove m k) k = none := by
  induction m with
  | nil => rfl
  | cons kv rest ih =>
    obtain ⟨k0, v0⟩ := kv
    rw [List.map_cons, List.nodup_cons] at h
    rw [alistRemove]
    by_cases hk : k0 = k
    · rw [if_pos hk]
      exact alistLookup_eq_none_of_not_mem rest k (hk ▸ h.1)
    · rw [if_neg hk, alistLookup, if_neg hk]
      exact ih h.2

theorem alistRemove_eq_of_lookup_none {α β : Type} [DecidableEq α]
    (m : List (α × β)) (k : α) (h : alistLookup m k = none) :
    alistRemove m k = m := by
  induction m with
  | nil => rfl
  | cons kv rest ih =>
    obtain ⟨k0, v0⟩ := kv
    rw [alistLookup] at h
    by_cases hk : k0 = k
    · rw [if_pos hk] at h
      exact absurd h (by simp)
    · rw [if_neg hk] at h
      rw [alistRemove, if_neg hk, ih h]

theorem alistLookup_alistRemove_ne {α β : Type} [DecidableEq α]
    (m : List (α × β)) (k k2 : α) (h : k2 ≠ k) :
    alistLookup (alistRemove m k) k2 = alistLookup m k2 := by
  induction m with
  | nil => rfl
  | cons kv rest ih =>
    obtain ⟨k0, v0⟩ := kv
    rw [alistRemove]
    by_cases hk : k0 = k
    · rw [if_pos hk, alistLookup, if_neg (fun h0 => h (hk ▸ h0).symm)]
    · rw [if_neg hk, alistLookup, alistLookup]
      by_cases hk2 : k0 = k2
      · rw [if_pos hk2, if_pos hk2]
      · rw [if_neg hk2, if_neg hk2]
        exact ih

/-- Receipt in the `SeedEdge` operator (dataflow.rs lines 431-437): buffer the
batch's forward edges under the batch's window
(`accums.entry(*time.time()).or_insert_with(Vec::new).extend_from_slice`). -/
def seedReceive {E : Type} (accums : List (Nat × List E)) (w : Nat)
    (data : List E) : List (Nat × List E) :=
  alistUpdate (fun old => old.getD [] ++ data) accums w

/-- `accum[..].choose(&mut rng)` (line 445): `none` on an empty buffer,
otherwise the element at a uniformly drawn index; `r` models the rng draw. -/
def chooseUniform {E : Type} (l : List E) (r : Nat) : Option E :=
  l.get? (r % l.length)

/-- Window closure in `SeedEdge` (lines 439-449): take the window's buffer out
of the map (`accums.remove`); when it existed, emit `choose` of it — zero or
one elements. -/
def seedClose {E : Type} (accums : List (Nat × List E)) (w r : Nat) :
    Option E × List (Nat × List E) :=
  match alistLookup accums w with
  | none => (none, accums)
  | some accum => (chooseUniform accum r, alistRemove accums w)

/-- C6: on a window's closure the seed sampler emits at most one edge (the
output is an `Option`): the element at a uniformly drawn index of the
window's buffered forward-edge list when that list is non-empty, and nothing
— with no error — when the window has an empty or absent buffer; in either
case the window's buffer entry is gone afterwards, and no other window's
buffer is touched. -/
theorem seedEdge_close_spec {E : Type} (accums : List (Nat × List E))
    (w r : Nat) (hnodup : (accums.map Prod.fst).Nodup) :
    (seedClose accums w r).1
      = (alistLookup accums w).bind (fun l => l.get? (r % l.length)) ∧
    alistLookup (seedClose accums w r).2 w = none ∧
    ∀ w2, w2 ≠ w →
      alistLookup (seedClose accums w r).2 w2 = alistLookup accums w2 := by
  cases h : alistLookup accums w with
  | none =>
    refine ⟨by simp [seedClose, h], by simp [seedClose, h], ?_⟩
    intro w2 _
    simp [seedClose, h]
  | some accum =>
    refine ⟨by simp [seedClose, h, chooseUniform], ?_, ?_⟩
    · simpa [seedClose, h] using alistLookup_alistRemove_self accums w hnodup
    · intro w2 hw2
      simpa [seedClose, h] using alistLookup_alistRemove_ne accums w w2 hw2

/-- Witness for C6 at a concrete state: windows 0 and 1 buffered, closing
window 0 with rng draw 3 picks index 3 % 2 = 1, removes window 0's buffer and
leaves window 1's. -/
theorem seedEdge_close_spec_witness :
    (seedClose [(0, [5, 6]), (1, [7])] 0 3).1 = some (6 : Nat) ∧
    alistLookup (seedClose [(0, [5, 6]), (1, [7])] 0 3).2 0 = none ∧
    alistLookup (seedClose [(0, [5, 6]), (1, [7])] 0 3).2 1 = some [7] := by
  have h := seedEdge_close_spec [(0, [5, 6]), (1, [7])] 0 3 (by decide)
  exact ⟨h.1.trans rfl, h.2.1, (h.2.2 1 (by decide)).trans rfl⟩

/-- The two per-window buffers of the `count` operator (dataflow.rs lines
458-459): `bc_map` (window → (edge source → summed score)) and `forward_map`
(window → buffered forward edges).  Scores arrive as `f64` and are truncated
by `count as u64` on receipt (line 474); the model carries the
already-truncated `Nat`. -/
structure CountState (K E : Type) where
  bcMap : List (Nat × List (K × Nat))
  forwardMap : List (Nat × List E)

/-- `*bc_entry.entry(k).or_insert(0u64) += c` (lines 472-474). -/
def bcEntryAdd {K : Type} [DecidableEq K] (entry : List (K × Nat)) (k : K)
    (c : Nat) : List (K × Nat) :=
  alistUpdate (fun old => old.getD 0 + c) entry k

/-- The `count` operator's first input handler (lines 468-477): fold the
batch into the window's score map, keying each score by its edge's source;
`d.src().expect("edge w/o src")` panics (`none`) on a source-less edge. -/
def count_receive_bc {K E : Type} [DecidableEq K] (s : CountState K E)
    (w : Nat) (data : List (Option K × Nat)) : Option (CountState K E) := do
  let entry0 := (alistLookup s.bcMap w).getD []
  let entry ← data.foldlM
    (fun acc d => (d.1).map (fun k => bcEntryAdd acc k d.2)) entry0
  pure { s with bcMap := alistUpdate (fun _ => entry) s.bcMap w }

/-- The `count` operator's second input handler (lines 478-485): buffer the
batch's forward edges under the window. -/
def count_receive_forward {K E : Type} (s : CountState K E) (w : Nat)
    (data : List E) : CountState K E :=
  { s with forwardMap := alistUpdate (fun old => old.getD [] ++ data) s.forwardMap w }

/-- Window closure in the `count` operator (lines 486-501): take the window's
forward edges out of `forward_map`; when both buffers hold the window, add up
`bc_entry[edge.dst()]` over the forward edges, with
`edge.dst().expect("forward without dst found")` panicking (`none`) on a
destination-less edge; emit the single total and remove the window from both
maps (lines 498-499). -/
def count_close {K E : Type} [DecidableEq K] (dst : E → Option K)
    (s : CountState K E) (w : Nat) : Option (Nat × CountState K E) := do
  let sum ←
    match alistLookup s.forwardMap w with
    | none => pure 0
    | some forwardEdges =>
      match alistLookup s.bcMap w with
      | none => pure 0
      | some bcEntry =>
        forwardEdges.foldlM
          (fun acc e => (dst e).map
            (fun d => acc + (alistLookup bcEntry d).getD 0)) 0
  pure (sum,
    { bcMap := alistRemove s.bcMap w,
      forwardMap := alistRemove (alistRemove s.forwardMap w) w })

theorem count_foldlM_sum {K E : Type} [DecidableEq K] (dst : E → Option K)
    (bcEntry : List (K × Nat)) :
    ∀ (edges : List E) (acc : Nat), (∀ e ∈ edges, (dst e).isSome) →
      edges.foldlM
          (fun acc e => (dst e).map
            (fun d => acc + (alistLookup bcEntry d).getD 0)) acc
        = some (acc + (edges.map (fun e =>
            ((dst e).bind (fun d => alistLookup bcEntry d)).getD 0)).sum) := by
  intro edges
  induction edges with
  | nil =>
    intro acc _
    simp [List.foldlM]
  | cons e rest ih =>
    intro acc h
    have he : (dst e).isSome := h e (by simp)
    obtain ⟨d, hd⟩ := Option.isSome_iff_exists.mp he
    have hrest : ∀ x ∈ rest, (dst x).isSome := fun x hx => h x (by simp [hx])
    rw [List.foldlM_cons, hd]
    simp only [Option.map_some', Option.bind_eq_bind, Option.some_bind]
    rw [ih (acc + (alistLookup bcEntry d).getD 0) hrest]
    simp [hd, Nat.add_assoc]

/-- C9: on a window's closure the path-count correlation stage emits exactly
one total — the sum, over the window's buffered forward edges, of the
buffered score whose key equals the edge's destination (0 for a destination
with no score, and 0 when either buffer lacks the window) — and both the
score buffer and the forward-edge buffer for that window are removed. -/
theorem count_close_spec {K E : Type} [DecidableEq K] (dst : E → Option K)
    (s : CountState K E) (w : Nat)
    (hnodupBc : (s.bcMap.map Prod.fst).Nodup)
    (hnodupF : (s.forwardMap.map Prod.fst).Nodup)
    (hdst : ∀ e ∈ (alistLookup s.forwardMap w).getD [], (dst e).isSome) :
    (count_close dst s w).map Prod.fst
      = some ((((alistLookup s.forwardMap w).getD []).map (fun e =>
          ((dst e).bind (fun d =>
            alistLookup ((alistLookup s.bcMap w).getD []) d)).getD 0)).sum) ∧
    (count_close dst s w).map (fun p => alistLookup p.2.bcMap w) = some none ∧
    (count_close dst s w).map (fun p => alistLookup p.2.forwardMap w)
      = some none := by
  have hclose : count_close dst s w
      = some ((((alistLookup s.forwardMap w).getD []).map (fun e =>
          ((dst e).bind (fun d =>
            alistLookup ((alistLookup s.bcMap w).getD []) d)).getD 0)).sum,
        { bcMap := alistRemove s.bcMap w,
          forwardMap := alistRemove (alistRemove s.forwardMap w) w }) := by
    cases hf : alistLookup s.forwardMap w with
    | none => simp [count_close, hf]
    | some forwardEdges =>
      cases hb : alistLookup s.bcMap w with
      | none =>
        simp only [count_close, hf, hb, Option.getD_some, Option.getD_none]
        simp [alistLookup]
      | some bcEntry =>
        rw [hf] at hdst
        simp only [Option.getD_some] at hdst
        simp only [count_close, hf, hb, Option.getD_some]
        rw [count_foldlM_sum dst bcEntry forwardEdges 0 hdst]
        simp
  refine ⟨by rw [hclose]; rfl, ?_, ?_⟩
  · rw [hclose]
    simp only [Option.map_some']
    exact congrArg some (alistLookup_alistRemove_self s.bcMap w hnodupBc)
  · rw [hclose]
    simp only [Option.map_some']
    refine congrArg some ?_
    have h1 := alistLookup_alistRemove_self s.forwardMap w hnodupF
    rw [alistRemove_eq_of_lookup_none (alistRemove s.forwardMap w) w h1]
    exact h1

/-- Witness for C9 at a concrete state: window 3 buffers scores
`{10 ↦ 5, 11 ↦ 7}` and forward edges with destinations `[10, 10, 12]`
(modelled as `E := Option Nat` with `dst := id`); closing window 3 emits
`5 + 5 + 0 = 10` and clears both buffers. -/
theorem count_close_spec_witness :
    (count_close (fun e => e)
        (CountState.mk [(3, [(10, 5), (11, 7)])]
          [(3, [some 10, some 10, some 12])]) 3).map Prod.fst = some 10 ∧
    (count_close (fun e => e)
        (CountState.mk [(3, [(10, 5), (11, 7)])]
          [(3, [some 10, some 10, some 12])]) 3).map
      (fun p => alistLookup p.2.bcMap 3) = some none ∧
    (count_close (fun e => e)
        (CountState.mk [(3, [(10, 5), (11, 7)])]
          [(3, [some 10, some 10, some 12])]) 3).map
      (fun p => alistLookup p.2.forwardMap 3) = some none := by
  have h := @count_close_spec Nat (Option Nat) instDecidableEqNat (fun e => e)
    (CountState.mk [(3, [(10, 5), (11, 7)])] [(3, [some 10, some 10, some 12])])
    3 (by decide) (by decide) (by decide)
  exact ⟨h.1.trans rfl, h.2.1, h.2.2⟩

/-- Embedding of `Summary<T>` (dataflow.rs lines 66-72), the accumulator of
both summary stages: `bc` and `weighted_bc` live in the score's numeric
domain `T` (`f64` in the summary stage, `u64` in the single-path summary
stage), `weight` and `count` are `u64` counts. -/
structure Summary (T : Type) where
  bc : T
  weighted_bc : T
  weight : Nat
  count : Nat

/-- `impl AddAssign for Summary<T>` (dataflow.rs lines 103-112):
component-wise addition. -/
def Summary.add_assign {T : Type} [Add T] (a other : Summary T) : Summary T :=
  { bc := a.bc + other.bc,
    weighted_bc := a.weighted_bc + other.weighted_bc,
    weight := a.weight + other.weight,
    count := a.count + other.count }

/-- `#[derive(Default)]` on `Summary` (line 66): every component is its
domain's zero. -/
def Summary.defaultValue {T : Type} [Zero T] : Summary T :=
  { bc := 0, weighted_bc := 0, weight := 0, count := 0 }

/-- C7: Summary combination (component-wise addition) is commutative and
associative — so merging three contributions in any order yields an identical
Summary — and the derived default value is the additive identity.  `T` is the
score domain, any commutative additive monoid: exactly `u64` (ℕ) in the
single-path summary stage; the summary stage's `f64` is modelled by its
idealized additive structure (IEEE rounding is out of scope). -/
theorem summary_add_comm_assoc_identity {T : Type} [AddCommMonoid T]
    (a b c : Summary T) :
    Summary.add_assign a b = Summary.add_assign b a ∧
    Summary.add_assign (Summary.add_assign a b) c
      = Summary.add_assign a (Summary.add_assign b c) ∧
    Summary.add_assign Summary.defaultValue a = a ∧
    Summary.add_assign a Summary.defaultValue = a := by
  obtain ⟨a1, a2, a3, a4⟩ := a
  obtain ⟨b1, b2, b3, b4⟩ := b
  obtain ⟨c1, c2, c3, c4⟩ := c
  refine ⟨?_, ?_, ?_, ?_⟩
  · simp [Summary.add_assign, add_comm]
  · simp [Summary.add_assign, add_assoc]
  · simp [Summary.add_assign, Summary.defaultValue]
  · simp [Summary.add_assign, Summary.defaultValue]

/-- The window-crossing classifier inside `MapToSummary` (dataflow.rs lines
524-534).  The enclosing window is `[window_start_time * window_size_ns,
window_start_time * window_size_ns + window_size_ns)` — the epoch times the
width up to one width later; the edge crosses the start boundary iff its
source timestamp equals the window start (line 526), and the end boundary iff
its destination timestamp equals the window end (lines 527-528). -/
def crossingClassifier (window_start_time window_size_ns srcTs dstTs : Nat) :
    Char :=
  let crosses_start : Bool := decide (srcTs = window_start_time * window_size_ns)
  let crosses_end : Bool :=
    decide (dstTs = window_start_time * window_size_ns + window_size_ns)
  match crosses_start, crosses_end with
  | true, true => 'B'
  | true, false => 'S'
  | false, true => 'E'
  | false, false => 'N'

/-- C8: the classifier maps an edge `[srcTs, dstTs)` inside the window
starting at `window_start_time * window_size_ns` to `'B'` iff both boundary
equalities hold, `'S'` iff only the source one, `'E'` iff only the
destination one, `'N'` otherwise; in particular with width 1000 and window
`[0, 1000)`: `(0,1000) ↦ B`, `(0,500) ↦ S`, `(500,1000) ↦ E`,
`(200,800) ↦ N`. -/
theorem crossing_classifier_spec
    (window_start_time window_size_ns srcTs dstTs : Nat) :
    (crossingClassifier window_start_time window_size_ns srcTs dstTs = 'B' ↔
      (srcTs = window_start_time * window_size_ns ∧
       dstTs = window_start_time * window_size_ns + window_size_ns)) ∧
    (crossingClassifier window_start_time window_size_ns srcTs dstTs = 'S' ↔
      (srcTs = window_start_time * window_size_ns ∧
       dstTs ≠ window_start_time * window_size_ns + window_size_ns)) ∧
    (crossingClassifier window_start_time window_size_ns srcTs dstTs = 'E' ↔
      (srcTs ≠ window_start_time * window_size_ns ∧
       dstTs = window_start_time * window_size_ns + window_size_ns)) ∧
    (crossingClassifier window_start_time window_size_ns srcTs dstTs = 'N' ↔
      (srcTs ≠ window_start_time * window_size_ns ∧
       dstTs ≠ window_start_time * window_size_ns + window_size_ns)) ∧
    crossingClassifier 0 1000 0 1000 = 'B' ∧
    crossingClassifier 0 1000 0 500 = 'S' ∧
    crossingClassifier 0 1000 500 1000 = 'E' ∧
    crossingClassifier 0 1000 200 800 = 'N' := by
  refine ⟨?_, ?_, ?_, ?_, by decide, by decide, by decide, by decide⟩ <;>
    · by_cases h1 : srcTs = window_start_time * window_size_ns <;>
      by_cases h2 :
          dstTs = window_start_time * window_size_ns + window_size_ns <;>
        (simp [crossingClassifier, h1, h2]; try decide)

/-- The operator-id component of the summary stage's aggregation key
(`MapToSummary`, dataflow.rs line 538):
`e.operator_id.unwrap_or(std::u16::MAX as u64) as u8` — the sentinel is
`u16::MAX as u64 = 65535` and `as u8` keeps the low 8 bits. -/
def summaryOperatorKey (operator_id : Option Nat) : Nat :=
  operator_id.getD 65535 % 256

/-- The operator-id component of the single-path summary key (`e_weight`,
dataflow.rs line 596): `e.operator_id.unwrap_or(255) as u8`. -/
def spSummaryOperatorKey (operator_id : Option Nat) : Nat :=
  operator_id.getD 255 % 256

/-- C10: in both summary stages the operator-id key component is the edge's
operator id truncated to 8 bits, with 255 the sentinel for an absent id (the
two stages agree on every input); consequently two edges whose operator ids
are congruent modulo 256 — or an id congruent to 255 and an absent id — get
equal key components, so their contributions merge under one key. -/
theorem operator_id_key_truncation (a b : Nat) (o : Option Nat) :
    summaryOperatorKey none = 255 ∧
    spSummaryOperatorKey none = 255 ∧
    summaryOperatorKey (some a) = a % 256 ∧
    spSummaryOperatorKey o = summaryOperatorKey o ∧
    (a % 256 = b % 256 →
      summaryOperatorKey (some a) = summaryOperatorKey (some b) ∧
      spSummaryOperatorKey (some a) = spSummaryOperatorKey (some b)) ∧
    (a % 256 = 255 →
      summaryOperatorKey (some a) = summaryOperatorKey none) := by
  refine ⟨by decide, by decide, rfl, ?_, ?_, ?_⟩
  · cases o with
    | none => decide
    | some v => rfl
  · intro h
    exact ⟨by simpa [summaryOperatorKey] using h,
           by simpa [spSummaryOperatorKey] using h⟩
  · intro h
    simpa [summaryOperatorKey] using h

end Dataflow
